import Mathlib

/-!
Verification model of `playing.rs` (`src/main.rs`): a CLI controller for
MPRIS media players.  The data model, the `run` dispatch loop, the status
formatter and the error type are translated from the Rust source.  The bus
and the favorites collaborator are abstracted as a `World` record holding
the outcome of each external call; external calls performed by the program
are recorded as an `Event` trace.  Transport commands and the pure metadata
reads (`get_playback_status`, `get_metadata`) are modelled on their success
path; `PlayerFinder::new`, `find_all` and the three favorites calls keep
their fallibility, since the claims under study depend on them.  Rust
`f32` second values are abstracted as exact rationals.
-/

namespace Playing

/-- Playback status, from the `mpris` crate: `{Playing, Paused, Stopped}`. -/
inductive PlaybackStatus
  | Playing
  | Paused
  | Stopped
deriving DecidableEq, Repr

/-- The slice of player metadata the program reads: `title()`,
`album_name()`, `album_artists()`, `url()`, `track_id()`; each read is an
`Option`, mirroring the `mpris` accessors. -/
structure Metadata where
  title : Option String
  albumName : Option String
  albumArtists : Option (List String)
  url : Option String
  trackId : Option String
deriving DecidableEq, Repr

/-- A running player as seen over the bus: its `identity()` string, its
playback status and its metadata (both modelled as pure reads). -/
structure RunningPlayer where
  identity : String
  status : PlaybackStatus
  meta : Metadata
deriving DecidableEq, Repr

/-- Rust `enum Player` from the source: the closed identity union with the
`Custom` escape hatch. -/
inductive Player
  | Mpv
  | Vlc
  | Firefox
  | Spotify
  | Chrome
  | Custom (s : String)
deriving DecidableEq, Repr

/-- Source `Player::to_str`: the canonical bus identity string of each variant. -/
def Player.toStr : Player → String
  | .Mpv => "mpv"
  | .Vlc => "vlc"
  | .Firefox => "Mozilla firefox"
  | .Spotify => "Spotify"
  | .Chrome => "chrome"
  | .Custom s => s

/-- Source `Player::parse`: partial inverse of `to_str` on the five known
identity strings. -/
def Player.parse (s : String) : Option Player :=
  if s = "mpv" then some .Mpv
  else if s = "vlc" then some .Vlc
  else if s = "Mozilla firefox" then some .Firefox
  else if s = "Spotify" then some .Spotify
  else if s = "chrome" then some .Chrome
  else none

/-- Source `Player::icon`: the glyph of each variant.  The code points are the
ones in the source: Mpv U+F36E, Vlc U+F057C, Firefox U+F269, Spotify
U+F1BC, Chrome U+F268, and `Custom(_)` the generic note glyph U+F001. -/
def Player.icon : Player → String
  | .Mpv => String.mk [Char.ofNat 0xF36E]
  | .Vlc => String.mk [Char.ofNat 0xF057C]
  | .Firefox => String.mk [Char.ofNat 0xF269]
  | .Spotify => String.mk [Char.ofNat 0xF1BC]
  | .Chrome => String.mk [Char.ofNat 0xF268]
  | .Custom _ => String.mk [Char.ofNat 0xF001]

/-- The fixed ranking built in `run`:
`vec![Custom("mpv"), Vlc, Firefox, Spotify, Chrome]`. -/
def ranking : List Player :=
  [.Custom "mpv", .Vlc, .Firefox, .Spotify, .Chrome]

/-- Rust `enum PlayingErrorKind` from the source.  The Rust names are
`DBus`, `IO`, `Spotifav`; the second is spelled `Io` here. -/
inductive PlayingErrorKind
  | DBus
  | Io
  | Spotifav
deriving DecidableEq, Repr

/-- The `Display` (= `Debug`) rendering of an error kind, as printed by
`main` in the `error: <kind>: <cause>` line. -/
def kindName : PlayingErrorKind → String
  | .DBus => "DBus"
  | .Io => "IO"
  | .Spotifav => "Spotifav"

/-- Rust `struct PlayingError`: a kind, the boxed cause (modelled as its
display string) and the process exit code carried with the error. -/
structure PlayingError where
  kind : PlayingErrorKind
  inner : String
  code : Int
deriving DecidableEq, Repr

/-- Conversion `impl From<DBusError> for PlayingError`: kind `DBus`, code 2. -/
def PlayingError.fromDBus (s : String) : PlayingError :=
  { kind := .DBus, inner := s, code := 2 }

/-- Conversion `impl From<std::io::Error> for PlayingError`: kind `IO`, code 3. -/
def PlayingError.fromIoErr (s : String) : PlayingError :=
  { kind := .Io, inner := s, code := 3 }

/-- Conversion `impl From<Box<dyn Error>> for PlayingError`: kind `IO`, code 4. -/
def PlayingError.fromBoxed (s : String) : PlayingError :=
  { kind := .Io, inner := s, code := 4 }

/-- Source `PlayingError::from_spotifav`: kind `Spotifav`, code 5. -/
def PlayingError.fromSpotifav (s : String) : PlayingError :=
  { kind := .Spotifav, inner := s, code := 5 }

/-- The error literal built in `run` when `PlayerFinder::new` fails:
kind `DBus`, code 8. -/
def busInitError (s : String) : PlayingError :=
  { kind := .DBus, inner := s, code := 8 }

/-- Rust `enum Mode` (parsed but never consulted by the dispatch logic). -/
inductive Mode
  | single
  | multiple
deriving DecidableEq, Repr

/-- Rust `enum Operation`: the transport subcommands.  `f32` second counts are
modelled as exact rationals. -/
inductive Operation
  | toggle
  | play
  | pause
  | next
  | previous
  | rewind (seconds : Rat)
  | forward (seconds : Rat)
  | seekRelative (seconds : Rat)
  | seek (seconds : Rat)
deriving DecidableEq, Repr

/-- Rust `enum Action`: the five top-level subcommands with their flags. -/
inductive Action
  | operation (op : Operation)
  | player
  | status (noIcon : Bool) (spacesAfterIcon : Nat) (quiet : Bool)
  | favorite (poll : Bool) (always : Bool)
  | url
deriving DecidableEq, Repr

/-- Rust `struct Cmd`: parsed command line (`mode` is inert). -/
structure Cmd where
  mode : Mode
  action : Action
deriving DecidableEq, Repr

/-- Source `const MAX_STATUS_LEN: usize = 70`. -/
def MAX_STATUS_LEN : Nat := 70

/-- Rust `as i64` on a (finite) float value: truncation toward zero,
modelled on exact rationals. -/
def ratTruncToInt (q : Rat) : Int :=
  if 0 ≤ q then ⌊q⌋ else ⌈q⌉

/-- Observable effects of one invocation: transport commands issued to a
player (tagged by its identity string), favorites-collaborator calls, and
writes to standard output (`out` = `println!`, `rawOut` = `print!`) and
standard error (`errOut` = `eprintln!`). -/
inductive Event
  | play (id : String)
  | pause (id : String)
  | next (id : String)
  | previous (id : String)
  | seekBackwards (id : String) (seconds : Rat)
  | seekForwards (id : String) (seconds : Rat)
  | seek (id : String) (offset : Int)
  | setPosition (id : String) (track : String) (seconds : Rat)
  | getClient
  | pollFav
  | toggleFav
  | out (s : String)
  | rawOut (s : String)
  | errOut (s : String)
deriving DecidableEq, Repr

/-- Result of `run`: `Ok(bool)`, `Err(PlayingError)`, or a Rust panic
(from an `unwrap` failing). -/
inductive RunResult
  | ok (b : Bool)
  | err (e : PlayingError)
  | panicked
deriving DecidableEq, Repr

/-- How the process terminates in `main`: a normal `exit(code)`, or a
panic that bypasses the error taxonomy. -/
inductive ExitKind
  | code (c : Int)
  | panic2 : ExitKind
deriving DecidableEq, Repr

/-- The abstracted environment of one invocation: the outcome of
`PlayerFinder::new`, the (stable) outcome of every `find_all` call, and
the outcomes of the favorites collaborator's `get_client`, `poll` and
`do_toggle`.  Error payloads are their display strings. -/
structure World where
  finderNew : Except String Unit
  findAll : Except String (List RunningPlayer)
  getClient : Except String Unit
  pollRes : Except String Unit
  toggleRes : Except String Bool

/-- Source `finder.find_by_name("Spotify").is_ok()`: true exactly when the bus
enumerates a running player whose identity is `Spotify` (a failing bus
yields an error, hence `false`). -/
def findByNameSpotify (w : World) : Bool :=
  match w.findAll with
  | .ok l => l.any (fun p => decide (p.identity = "Spotify"))
  | .error _ => false

/-- Rust `str::len`: the UTF-8 byte length of a character list. -/
def byteLen (l : List Char) : Nat :=
  (l.map Char.utf8Size).sum

/-- Rust byte slicing `&s[..n]`: the characters covering the first `n`
bytes; `none` when `n` overruns the string or falls inside a multi-byte
character (a Rust panic). -/
def takeBytes : Nat → List Char → Option (List Char)
  | 0, _ => some []
  | _ + 1, [] => none
  | n + 1, c :: cs =>
    if c.utf8Size ≤ n + 1 then
      (takeBytes (n + 1 - c.utf8Size) cs).map (fun l => c :: l)
    else none

/-- The truncation step of the status printer: if the line's byte length
exceeds `MAX_STATUS_LEN`, emit its first `MAX_STATUS_LEN - 3` bytes
followed by `"..."` (`none` = panic on a bad byte boundary); otherwise
emit the line unchanged. -/
def statusPrint (line : String) : Option String :=
  if byteLen line.toList > MAX_STATUS_LEN then
    (takeBytes (MAX_STATUS_LEN - 3) line.toList).map
      (fun l => String.mk l ++ "...")
  else some line

/-- The icon chosen in the status arm of `run`: re-parse the player's
bus identity; a parsed variant contributes its glyph, an unparsable
identity the generic note glyph U+F001. -/
def iconGlyph (id : String) : String :=
  match Player.parse id with
  | some pl => pl.icon
  | none => String.mk [Char.ofNat 0xF001]

/-- The icon part of the status line: empty when `no_icon` is set,
otherwise the glyph followed by `spaces_after_icon` spaces. -/
def iconPart (id : String) (noIcon : Bool) (spacesAfterIcon : Nat) : String :=
  if noIcon then "" else iconGlyph id ++ String.mk (List.replicate spacesAfterIcon ' ')

/-- The composed status line: icon part, then
`title // album @ artists[0]`, with `"Unknown"` defaults for a missing
title, a missing album, and a missing or empty `album_artists` list. -/
def statusLine (p : RunningPlayer) (noIcon : Bool) (spacesAfterIcon : Nat) : String :=
  let title := p.meta.title.getD "Unknown"
  let album := p.meta.albumName.getD "Unknown"
  let artists0 := p.meta.albumArtists.getD []
  let artists := if artists0.isEmpty then ["Unknown"] else artists0
  iconPart p.identity noIcon spacesAfterIcon ++ title ++ " // " ++ album
    ++ " @ " ++ artists.headD ""

/-- Emission of a status line for a playing match (`quiet` unset): print
the possibly truncated line and return `Ok(true)`, or panic on a bad
truncation boundary. -/
def emitStatus (p : RunningPlayer) (noIcon : Bool) (spacesAfterIcon : Nat) :
    List Event × RunResult :=
  match statusPrint (statusLine p noIcon spacesAfterIcon) with
  | some s => ([.out s], .ok true)
  | none => ([], .panicked)

/-- The transport command(s) one `Operation` issues on one matched
player: `Toggle` reads the playback status and pauses a playing player,
otherwise plays; `Rewind`/`Forward` seek backwards/forwards by the given
seconds; `SeekRelative` seeks by `(seconds * 64) as i64`; `Seek` sets the
position when the track exposes a `track_id` and is silently skipped
otherwise. -/
def stepOp (op : Operation) (p : RunningPlayer) : List Event :=
  match op with
  | .toggle =>
    if p.status = .Playing then [.pause p.identity] else [.play p.identity]
  | .play => [.play p.identity]
  | .pause => [.pause p.identity]
  | .next => [.next p.identity]
  | .previous => [.previous p.identity]
  | .rewind seconds => [.seekBackwards p.identity seconds]
  | .forward seconds => [.seekForwards p.identity seconds]
  | .seekRelative seconds => [.seek p.identity (ratTruncToInt (seconds * 64))]
  | .seek seconds =>
    match p.meta.trackId with
    | some t => [.setPosition p.identity t seconds]
    | none => []

/-- The `Url` arm on one matched player: when the identity parses into a
known `Player`, print (without a newline) the metadata URL, defaulting to
the empty string; otherwise print nothing. -/
def urlEvents (p : RunningPlayer) : List Event :=
  if (Player.parse p.identity).isSome then [.rawOut (p.meta.url.getD "")] else []

/-- The body of the dispatch loop on one matched pair: the events it
emits and, when the body `return`s, the result that ends `run`. -/
def dispatch (act : Action) (p : RunningPlayer) : List Event × Option RunResult :=
  match act with
  | .operation op => (stepOp op p, none)
  | .status noIcon spacesAfterIcon quiet =>
    if p.status = .Playing then
      if quiet then ([], some (.ok false))
      else
        let r := emitStatus p noIcon spacesAfterIcon
        (r.1, some r.2)
    else ([], none)
  | .favorite _ _ => ([], none)
  | .url => (urlEvents p, none)
  | .player => ([.out p.identity], none)

/-- What `run` does after the dispatch loop exhausts the ranking:
quiet status returns `Ok(false)`; non-quiet status prints `"No media"`
and falls through to `Ok(true)`; every other action returns `Ok(true)`. -/
def afterLoop (act : Action) : List Event × RunResult :=
  match act with
  | .status _ _ true => ([], .ok false)
  | .status _ _ false => ([.out "No media"], .ok true)
  | _ => ([], .ok true)

/-- The inner loop `for p in finder.find_all().unwrap()` for one ranking
entry: dispatch on each player whose identity equals the entry's
canonical string; an early `return` in the body stops the whole loop. -/
def loopPlayers (act : Action) (id : Player) : List RunningPlayer → List Event × Option RunResult
  | [] => ([], none)
  | p :: rest =>
    if p.identity = id.toStr then
      match dispatch act p with
      | (evs, some r) => (evs, some r)
      | (evs, none) =>
        let t := loopPlayers act id rest
        (evs ++ t.1, t.2)
    else loopPlayers act id rest

/-- The outer loop `for id in ranking`, re-enumerating the same bus
snapshot for each entry. -/
def loopRanking (act : Action) (players : List RunningPlayer) : List Player → List Event × Option RunResult
  | [] => ([], none)
  | id :: rest =>
    match loopPlayers act id players with
    | (evs, some r) => (evs, some r)
    | (evs, none) =>
      let t := loopRanking act players rest
      (evs ++ t.1, t.2)

/-- Resolver view (spec section 4.1) of the matching: the ordered `(ranked identity,
running player)` pairs, ranking-major, snapshot order within an entry. -/
def resolve (rk : List Player) (players : List RunningPlayer) :
    List (Player × RunningPlayer) :=
  rk.flatMap (fun id =>
    (players.filter (fun p => decide (p.identity = id.toStr))).map (fun p => (id, p)))

/-- Source `run`: connect to the bus (`BusInit`-style `DBus`/code-8 error on
failure); a `Favorite` action bypasses the resolver and runs the
favorites workflow; every other action runs the ranking loop over the
enumerated snapshot, `unwrap`ing the enumeration (panic on failure), and
then the post-loop tail. -/
def run (cmd : Cmd) (w : World) : List Event × RunResult :=
  match w.finderNew with
  | .error e => ([], .err (busInitError e))
  | .ok _ =>
    match cmd.action with
    | .favorite poll always =>
      if findByNameSpotify w || always then
        match w.getClient with
        | .error e => ([.getClient], .err (PlayingError.fromSpotifav e))
        | .ok _ =>
          match (if poll then w.pollRes.map (fun _ => [Event.pollFav]) else .ok []) with
          | .error e => ([.getClient, .pollFav], .err (PlayingError.fromSpotifav e))
          | .ok pollEvs =>
            match w.toggleRes with
            | .error e =>
              (.getClient :: pollEvs ++ [.toggleFav], .err (PlayingError.fromSpotifav e))
            | .ok b =>
              (.getClient :: pollEvs ++
                [.toggleFav,
                 .out (if b then "added song to favorites" else "removed song from favorites")],
               .ok true)
      else ([.errOut "spotify is not playing"], .ok false)
    | act =>
      match w.findAll with
      | .error _ => ([], .panicked)
      | .ok players =>
        match loopRanking act players ranking with
        | (tr, some r) => (tr, r)
        | (tr, none) =>
          let t := afterLoop act
          (tr ++ t.1, t.2)

/-- Source `main`: run, then `exit(0/1)` on `Ok(true/false)`; on `Err`, print
`error: <kind>: <cause>` to standard error and `exit` with the error's
carried code; a panic terminates outside this mapping. -/
def mainRun (cmd : Cmd) (w : World) : List Event × ExitKind :=
  match run cmd w with
  | (tr, .ok b) => (tr, .code (if b then 0 else 1))
  | (tr, .err e) =>
    (tr ++ [.errOut ("error: " ++ kindName e.kind ++ ": " ++ e.inner)], .code e.code)
  | (tr, .panicked) => (tr, .panic2)

/-- The text written to standard output by a trace (`out` appends a
newline, `rawOut` does not). -/
def stdoutText : List Event → String
  | [] => ""
  | .out s :: rest => s ++ "\n" ++ stdoutText rest
  | .rawOut s :: rest => s ++ stdoutText rest
  | _ :: rest => stdoutText rest

/-- Number of newline characters in a string. -/
def countNl (s : String) : Nat :=
  s.toList.count '\n'

/-! ### Concrete fixtures used by witnesses and counterexamples -/

/-- A running `mpv` instance that is playing, with full metadata. -/
def mpvPlaying : RunningPlayer :=
  ⟨"mpv", .Playing, ⟨some "T", some "A", some ["Ar"], some "u1", none⟩⟩

/-- A running `mpv` instance that is paused. -/
def mpvPaused : RunningPlayer :=
  ⟨"mpv", .Paused, ⟨some "MT", some "MA", some ["MAr"], some "u1", none⟩⟩

/-- A running `Spotify` instance that is playing, with full metadata. -/
def spotifyPlaying : RunningPlayer :=
  ⟨"Spotify", .Playing, ⟨some "ST", some "SA", some ["SAr"], some "u2", none⟩⟩

/-- A playing `mpv` with no title, no album and an empty artists list. -/
def bareMpv : RunningPlayer :=
  ⟨"mpv", .Playing, ⟨none, none, some [], none, none⟩⟩

/-- A world whose bus works and enumerates the given snapshot, and whose
favorites collaborator succeeds (toggle direction: added). -/
def okWorld (ps : List RunningPlayer) : World :=
  ⟨.ok (), .ok ps, .ok (), .ok (), .ok true⟩

/-- A world whose bus connects but whose enumeration fails. -/
def enumFailWorld : World :=
  ⟨.ok (), .error "enumeration failed", .ok (), .ok (), .ok true⟩

/-- A world where connecting to the bus itself fails. -/
def busInitFailWorld : World :=
  ⟨.error "no dbus", .ok [], .ok (), .ok (), .ok true⟩

/-- A playing player whose title starts with a two-byte character, making
the composed line 94 characters but 95 UTF-8 bytes. -/
def wideTitlePlayer : RunningPlayer :=
  ⟨"mpv", .Playing, ⟨some (String.mk ('é' :: List.replicate 72 'a')), none, none, none, none⟩⟩

/-- The byte-truncated output the code produces for `wideTitlePlayer`
with `no_icon` set: 66 characters (67 bytes) plus `"..."`. -/
def wideTruncated : String :=
  String.mk ('é' :: List.replicate 65 'a') ++ "..."

/-- An 85-character pure-ASCII status line. -/
def asciiLine85 : String :=
  String.mk (List.replicate 85 'a')

/-! ## Helper lemmas about the dispatch loop -/

theorem flatMap_map {α β γ : Type} (f : α → β) (g : β → List γ) (l : List α) :
    (l.map f).flatMap g = l.flatMap (fun x => g (f x)) := by
  induction l with
  | nil => rfl
  | cons x xs ih => simp [ih]

theorem loopPlayers_broadcast (act : Action) (id : Player) (ps : List RunningPlayer)
    (hno : ∀ p, (dispatch act p).2 = none) :
    loopPlayers act id ps =
      ((ps.filter (fun p => decide (p.identity = id.toStr))).flatMap
        (fun p => (dispatch act p).1), none) := by
  induction ps with
  | nil => rfl
  | cons p rest ih =>
    rcases hd : dispatch act p with ⟨evs, o⟩
    have ho : o = none := by
      have h2 := hno p
      rw [hd] at h2
      exact h2
    subst ho
    by_cases hp : p.identity = id.toStr
    · simp [loopPlayers, hp, hd, ih]
    · simp [loopPlayers, hp, ih]

theorem loopRanking_broadcast (act : Action) (players : List RunningPlayer)
    (rk : List Player) (hno : ∀ p, (dispatch act p).2 = none) :
    loopRanking act players rk =
      ((resolve rk players).flatMap (fun pr => (dispatch act pr.2).1), none) := by
  induction rk with
  | nil => rfl
  | cons id rest ih =>
    rw [loopRanking, loopPlayers_broadcast act id players hno]
    simp [resolve, ih, List.flatMap_append, flatMap_map]

/-- C1: for every `Operation` action and every successfully enumerated bus
snapshot, `run` executes the requested transport operation against every
`(ranked identity, running player)` pair produced by the resolver, in
order and with no early exit, and returns `Ok(true)`. -/
theorem operation_broadcast (mode : Mode) (op : Operation) (w : World)
    (players : List RunningPlayer)
    (hNew : w.finderNew = .ok ()) (hAll : w.findAll = .ok players) :
    run ⟨mode, .operation op⟩ w =
      ((resolve ranking players).flatMap (fun pr => stepOp op pr.2), .ok true) := by
  have hno : ∀ p, (dispatch (.operation op) p).2 = none := fun p => rfl
  simp only [run, hNew, hAll]
  rw [loopRanking_broadcast _ _ _ hno]
  simp [afterLoop, dispatch]

/-- C1 witness: with ranking `[mpv, vlc, firefox, spotify, chrome]` and a
snapshot where exactly `mpv` and `Spotify` are running, `Operation(Play)`
issues `play()` exactly once on each of the two running players and zero
times on players of the other three ranked identities. -/
theorem operation_broadcast_witness :
    ((run ⟨.single, .operation .play⟩ (okWorld [mpvPlaying, spotifyPlaying])).1.count
        (Event.play "mpv") = 1 ∧
      (run ⟨.single, .operation .play⟩ (okWorld [mpvPlaying, spotifyPlaying])).1.count
        (Event.play "Spotify") = 1 ∧
      (run ⟨.single, .operation .play⟩ (okWorld [mpvPlaying, spotifyPlaying])).1.count
        (Event.play "vlc") = 0 ∧
      (run ⟨.single, .operation .play⟩ (okWorld [mpvPlaying, spotifyPlaying])).1.count
        (Event.play "Mozilla firefox") = 0 ∧
      (run ⟨.single, .operation .play⟩ (okWorld [mpvPlaying, spotifyPlaying])).1.count
        (Event.play "chrome") = 0) ∧
    (run ⟨.single, .operation .play⟩ (okWorld [mpvPlaying, spotifyPlaying])).2 = .ok true := by
  have h := operation_broadcast .single .play (okWorld [mpvPlaying, spotifyPlaying])
    [mpvPlaying, spotifyPlaying] rfl rfl
  rw [h]
  decide

theorem find?_pair_playing (id : Player) (l : List RunningPlayer) :
    (l.map (fun p => (id, p))).find?
        (fun pr => decide (pr.2.status = PlaybackStatus.Playing)) =
      (l.find? (fun p => decide (p.status = PlaybackStatus.Playing))).map
        (fun p => (id, p)) := by
  induction l with
  | nil => rfl
  | cons p rest ih =>
    by_cases hp : p.status = PlaybackStatus.Playing
    · simp [List.find?_cons_of_pos, hp]
    · simp [List.find?_cons_of_neg, hp, ih]

theorem loopPlayers_status (ni : Bool) (sp : Nat) (q : Bool) (id : Player)
    (ps : List RunningPlayer) :
    loopPlayers (.status ni sp q) id ps =
      match (ps.filter (fun p => decide (p.identity = id.toStr))).find?
          (fun p => decide (p.status = PlaybackStatus.Playing)) with
      | some p => dispatch (.status ni sp q) p
      | none => ([], none) := by
  induction ps with
  | nil => rfl
  | cons p rest ih =>
    by_cases hp : p.identity = id.toStr
    · by_cases hs : p.status = PlaybackStatus.Playing
      · cases q <;> simp [loopPlayers, hp, dispatch, hs]
      · simp [loopPlayers, hp, dispatch, hs, ih]
    · simp [loopPlayers, hp, ih]

theorem loopRanking_status (ni : Bool) (sp : Nat) (q : Bool)
    (players : List RunningPlayer) (rk : List Player) :
    loopRanking (.status ni sp q) players rk =
      match (resolve rk players).find?
          (fun pr => decide (pr.2.status = PlaybackStatus.Playing)) with
      | some pr => dispatch (.status ni sp q) pr.2
      | none => ([], none) := by
  induction rk with
  | nil => rfl
  | cons id rest ih =>
    rw [loopRanking, loopPlayers_status]
    have hres : (resolve (id :: rest) players).find?
          (fun pr => decide (pr.2.status = PlaybackStatus.Playing)) =
        (((players.filter (fun p => decide (p.identity = id.toStr))).find?
            (fun p => decide (p.status = PlaybackStatus.Playing))).map (fun p => (id, p))).or
          ((resolve rest players).find?
            (fun pr => decide (pr.2.status = PlaybackStatus.Playing))) := by
      have h1 : resolve (id :: rest) players =
          (players.filter (fun p => decide (p.identity = id.toStr))).map (fun p => (id, p))
            ++ resolve rest players := rfl
      rw [h1, List.find?_append, find?_pair_playing]
    rcases hf : (players.filter (fun p => decide (p.identity = id.toStr))).find?
        (fun p => decide (p.status = PlaybackStatus.Playing)) with _ | p
    · simp only [hf]
      rw [hf, Option.map_none', Option.none_or] at hres
      rw [ih, hres]
      simp
    · have hs : p.status = PlaybackStatus.Playing := by
        have h2 := List.find?_some hf
        simpa using h2
      simp only [hf]
      rw [hf, Option.map_some', Option.or_some] at hres
      rw [hres]
      cases q <;> simp [dispatch, hs]

/-- C2: for the `Status` action with `quiet` unset, `run` walks the
resolver sequence in ranking order and, at the first pair whose playback
status is `Playing` (first *playing*, not first *present*), emits that
pair's status line and stops, returning success; if no pair is playing it
prints `"No media"` after exhausting the sequence. -/
theorem status_first_playing (mode : Mode) (ni : Bool) (sp : Nat) (w : World)
    (players : List RunningPlayer)
    (hNew : w.finderNew = .ok ()) (hAll : w.findAll = .ok players) :
    run ⟨mode, .status ni sp false⟩ w =
      match (resolve ranking players).find?
          (fun pr => decide (pr.2.status = PlaybackStatus.Playing)) with
      | some pr => emitStatus pr.2 ni sp
      | none => ([.out "No media"], .ok true) := by
  simp only [run, hNew, hAll]
  rw [loopRanking_status]
  rcases hf : (resolve ranking players).find?
      (fun pr => decide (pr.2.status = PlaybackStatus.Playing)) with _ | pr
  · simp [hf, afterLoop]
  · have hs : pr.2.status = PlaybackStatus.Playing := by
      have h2 := List.find?_some hf
      simpa using h2
    simp [hf, dispatch, hs]

/-- C2 witness: with `mpv` paused (ranked first) and `Spotify` playing
(ranked lower), the status line reflects `Spotify`'s metadata. -/
theorem status_first_playing_witness :
    run ⟨.single, .status false 1 false⟩ (okWorld [mpvPaused, spotifyPlaying]) =
      ([.out (Player.Spotify.icon ++ " ST // SA @ SAr")], .ok true) := by
  have h := status_first_playing .single false 1 (okWorld [mpvPaused, spotifyPlaying])
    [mpvPaused, spotifyPlaying] rfl rfl
  rw [h]
  decide

/-- C3 counterexample: the kind-to-exit-code relation in the code is not
1:1: a bus-initialization error and a bus-call error share the kind
`DBus` yet carry the different codes 8 and 2, and the "generic" boxed
error shares the kind `IO` with the I/O error while carrying code 4
instead of 3. -/
theorem error_kind_code_counterexample :
    (busInitError "x").kind = (PlayingError.fromDBus "x").kind ∧
    (busInitError "x").code ≠ (PlayingError.fromDBus "x").code ∧
    (PlayingError.fromBoxed "x").kind = (PlayingError.fromIoErr "x").kind ∧
    (PlayingError.fromBoxed "x").code ≠ (PlayingError.fromIoErr "x").code := by
  decide

/-- C3 amended: the error type carries one of three kinds
`{DBus, IO, Spotifav}`; the five construction sites fix (kind, code)
pairs bus-init→(DBus,8), bus→(DBus,2), io→(IO,3), generic→(IO,4),
favorites→(Spotifav,5); every error `run` returns is printed to standard
error as `error: <kind>: <cause>` and the process exits with the error's
carried code. -/
theorem error_taxonomy (s : String) (cmd : Cmd) (w : World) (tr : List Event)
    (e : PlayingError) (h : run cmd w = (tr, .err e)) :
    mainRun cmd w =
      (tr ++ [.errOut ("error: " ++ kindName e.kind ++ ": " ++ e.inner)], .code e.code) ∧
    ((PlayingError.fromDBus s).kind = .DBus ∧ (PlayingError.fromDBus s).code = 2) ∧
    ((busInitError s).kind = .DBus ∧ (busInitError s).code = 8) ∧
    ((PlayingError.fromIoErr s).kind = .Io ∧ (PlayingError.fromIoErr s).code = 3) ∧
    ((PlayingError.fromBoxed s).kind = .Io ∧ (PlayingError.fromBoxed s).code = 4) ∧
    ((PlayingError.fromSpotifav s).kind = .Spotifav ∧ (PlayingError.fromSpotifav s).code = 5) := by
  refine ⟨?_, ⟨rfl, rfl⟩, ⟨rfl, rfl⟩, ⟨rfl, rfl⟩, ⟨rfl, rfl⟩, ⟨rfl, rfl⟩⟩
  simp [mainRun, h]

/-- C3 witness: a failing bus connection surfaces as
`error: DBus: no dbus` on standard error with exit code 8. -/
theorem error_taxonomy_witness :
    mainRun ⟨.single, .player⟩ busInitFailWorld =
      ([.errOut "error: DBus: no dbus"], .code 8) := by
  have h := error_taxonomy "no dbus" ⟨.single, .player⟩ busInitFailWorld []
    (busInitError "no dbus") rfl
  simpa using h.1

/-- C4: quiet-status polarity: with `quiet` set, `run` returns `Ok(false)`
(exit code 1) with no output at all, whether or not a playing match
exists; with `quiet` unset, unless truncation panics, exactly one line is
printed and `Ok(true)` (exit code 0) is returned. -/
theorem status_quiet_polarity (mode : Mode) (ni : Bool) (sp : Nat) (w : World)
    (players : List RunningPlayer)
    (hNew : w.finderNew = .ok ()) (hAll : w.findAll = .ok players) :
    run ⟨mode, .status ni sp true⟩ w = ([], .ok false) ∧
    (mainRun ⟨mode, .status ni sp true⟩ w).2 = .code 1 ∧
    ((run ⟨mode, .status ni sp false⟩ w).2 ≠ .panicked →
      (∃ s, (run ⟨mode, .status ni sp false⟩ w).1 = [Event.out s]) ∧
      (run ⟨mode, .status ni sp false⟩ w).2 = .ok true ∧
      (mainRun ⟨mode, .status ni sp false⟩ w).2 = .code 0) := by
  have hq : run ⟨mode, .status ni sp true⟩ w = ([], .ok false) := by
    simp only [run, hNew, hAll]
    rw [loopRanking_status]
    rcases hf : (resolve ranking players).find?
        (fun pr => decide (pr.2.status = PlaybackStatus.Playing)) with _ | pr
    · simp [hf, afterLoop]
    · have hs : pr.2.status = PlaybackStatus.Playing := by
        have h2 := List.find?_some hf
        simpa using h2
      simp [hf, dispatch, hs]
  refine ⟨hq, by simp [mainRun, hq], ?_⟩
  intro hnp
  rcases hf : (resolve ranking players).find?
      (fun pr => decide (pr.2.status = PlaybackStatus.Playing)) with _ | pr
  · have hrun : run ⟨mode, .status ni sp false⟩ w = ([.out "No media"], .ok true) := by
      simp only [run, hNew, hAll]
      rw [loopRanking_status]
      simp [hf, afterLoop]
    rw [hrun]
    exact ⟨⟨"No media", rfl⟩, rfl, by simp [mainRun, hrun]⟩
  · have hs : pr.2.status = PlaybackStatus.Playing := by
      have h2 := List.find?_some hf
      simpa using h2
    rcases hsp : statusPrint (statusLine pr.2 ni sp) with _ | s
    · have hrun : run ⟨mode, .status ni sp false⟩ w = ([], .panicked) := by
        simp only [run, hNew, hAll]
        rw [loopRanking_status]
        simp [hf, dispatch, hs, emitStatus, hsp]
      rw [hrun] at hnp
      exact absurd rfl hnp
    · have hrun : run ⟨mode, .status ni sp false⟩ w = ([.out s], .ok true) := by
        simp only [run, hNew, hAll]
        rw [loopRanking_status]
        simp [hf, dispatch, hs, emitStatus, hsp]
      rw [hrun]
      exact ⟨⟨s, rfl⟩, rfl, by simp [mainRun, hrun]⟩

/-- C4 witness: on a snapshot with a playing player, quiet status exits 1
with no output and non-quiet status exits 0. -/
theorem status_quiet_polarity_witness :
    run ⟨.single, .status false 1 true⟩ (okWorld [mpvPaused, spotifyPlaying]) =
      ([], .ok false) ∧
    (mainRun ⟨.single, .status false 1 true⟩ (okWorld [mpvPaused, spotifyPlaying])).2 =
      .code 1 ∧
    (mainRun ⟨.single, .status false 1 false⟩ (okWorld [mpvPaused, spotifyPlaying])).2 =
      .code 0 := by
  have h := status_quiet_polarity .single false 1 (okWorld [mpvPaused, spotifyPlaying])
    [mpvPaused, spotifyPlaying] rfl rfl
  refine ⟨h.1, h.2.1, ?_⟩
  have h3 := h.2.2 (by decide)
  exact h3.2.2

/-- C5: the favorites workflow: with no enumerable `Spotify` player and
`always` unset, the client is never contacted, the ineligible message is
printed to standard error and `Ok(false)` is returned; when eligible (a
`Spotify` player is enumerable or `always` is set) the client is
obtained, `poll` is invoked exactly when the `poll` flag is set, then
`toggle`, a direction-specific message is printed and `Ok(true)` is
returned regardless of direction. -/
theorem favorite_gate (mode : Mode) (poll always : Bool) (w : World)
    (hNew : w.finderNew = .ok ()) :
    (findByNameSpotify w = false → always = false →
      run ⟨mode, .favorite poll always⟩ w =
        ([.errOut "spotify is not playing"], .ok false)) ∧
    (∀ b, (findByNameSpotify w = true ∨ always = true) →
      w.getClient = .ok () → (poll = true → w.pollRes = .ok ()) →
      w.toggleRes = .ok b →
      run ⟨mode, .favorite poll always⟩ w =
        (.getClient :: (if poll then [Event.pollFav] else []) ++
          [.toggleFav,
           .out (if b then "added song to favorites" else "removed song from favorites")],
         .ok true)) := by
  constructor
  · intro hsp halw
    simp [run, hNew, hsp, halw]
  · intro b helig hcli hpoll htog
    have hcond : (findByNameSpotify w || always) = true := by
      rcases helig with h | h <;> simp [h]
    cases poll
    · simp [run, hNew, hcond, hcli, htog]
    · have hp := hpoll rfl
      simp [run, hNew, hcond, hcli, hp, htog, Except.map]

/-- C5 witness: with only `mpv` running and `always` unset the client is
never contacted and the ineligible message appears; with `Spotify`
running (or with `always` set and an empty bus) the client is contacted,
polled when requested, toggled and the direction message printed. -/
theorem favorite_gate_witness :
    run ⟨.single, .favorite false false⟩ (okWorld [mpvPlaying]) =
      ([.errOut "spotify is not playing"], .ok false) ∧
    run ⟨.single, .favorite true false⟩ (okWorld [spotifyPlaying]) =
      ([.getClient, .pollFav, .toggleFav, .out "added song to favorites"], .ok true) ∧
    run ⟨.single, .favorite false true⟩ (okWorld []) =
      ([.getClient, .toggleFav, .out "added song to favorites"], .ok true) := by
  have h1 := (favorite_gate .single false false (okWorld [mpvPlaying]) rfl).1 rfl rfl
  have h2 := (favorite_gate .single true false (okWorld [spotifyPlaying]) rfl).2 true
    (Or.inl rfl) rfl (fun _ => rfl) rfl
  have h3 := (favorite_gate .single false true (okWorld []) rfl).2 true
    (Or.inr rfl) rfl (fun h => absurd h (by decide)) rfl
  exact ⟨h1, by simpa using h2, by simpa using h3⟩

theorem byteLen_ascii (l : List Char) (h : ∀ c ∈ l, c.utf8Size = 1) :
    byteLen l = l.length := by
  induction l with
  | nil => rfl
  | cons c cs ih =>
    have hc : c.utf8Size = 1 := h c (List.mem_cons_self c cs)
    have hcs : ∀ x ∈ cs, x.utf8Size = 1 := fun x hx => h x (List.mem_cons_of_mem c hx)
    simp [byteLen, hc] at ih ⊢
    rw [ih hcs]
    omega

theorem takeBytes_ascii (n : Nat) (l : List Char) (h : ∀ c ∈ l, c.utf8Size = 1)
    (hn : n ≤ l.length) : takeBytes n l = some (l.take n) := by
  induction l generalizing n with
  | nil =>
    have h0 : n = 0 := by simpa using hn
    subst h0
    rfl
  | cons c cs ih =>
    cases n with
    | zero => rfl
    | succ m =>
      have hc : c.utf8Size = 1 := h c (List.mem_cons_self c cs)
      have hcs : ∀ x ∈ cs, x.utf8Size = 1 := fun x hx => h x (List.mem_cons_of_mem c hx)
      have hm : m ≤ cs.length := by
        simp at hn
        omega
      simp [takeBytes, hc, ih m hcs hm]

/-- C6 counterexample: a composed status line of 94 characters (95 UTF-8
bytes, its first character being two bytes wide) is emitted as 66
characters plus `"..."` — 69 characters in total, not 70, and not the
line's first 67 characters plus `"..."` as the claim states. -/
theorem truncation_chars_counterexample :
    (statusLine wideTitlePlayer true 1).toList.length = 94 ∧
    statusPrint (statusLine wideTitlePlayer true 1) = some wideTruncated ∧
    wideTruncated.length = 69 ∧
    wideTruncated ≠
      String.mk ((statusLine wideTitlePlayer true 1).toList.take 67) ++ "..." := by
  decide

/-- C6 amended: truncation is governed by the line's UTF-8 *byte* length
(Rust `str::len` and byte slicing): a line of at most 70 bytes is printed
unmodified, and a longer line is emitted as its first 67 bytes plus
`"..."`; for a line of single-byte characters this coincides with the
claim, e.g. an 85-character ASCII line yields its first 67 characters
followed by `"..."` (70 characters in total). -/
theorem truncation_bytes (line : String) :
    (byteLen line.toList ≤ MAX_STATUS_LEN → statusPrint line = some line) ∧
    (byteLen line.toList > MAX_STATUS_LEN →
      statusPrint line =
        (takeBytes (MAX_STATUS_LEN - 3) line.toList).map (fun l => String.mk l ++ "...")) ∧
    ((∀ c ∈ line.toList, c.utf8Size = 1) → line.toList.length = 85 →
      statusPrint line = some (String.mk (line.toList.take 67) ++ "...")) := by
  refine ⟨?_, ?_, ?_⟩
  · intro h
    unfold statusPrint
    rw [if_neg (Nat.not_lt.mpr h)]
  · intro h
    unfold statusPrint
    rw [if_pos h]
  · intro hascii hlen
    have hb : byteLen line.toList = 85 := by
      rw [byteLen_ascii line.toList hascii, hlen]
    have hgt : byteLen line.toList > MAX_STATUS_LEN := by
      rw [hb]
      decide
    have htk : takeBytes 67 line.toList = some (line.toList.take 67) := by
      apply takeBytes_ascii 67 line.toList hascii
      omega
    unfold statusPrint
    rw [if_pos hgt, show MAX_STATUS_LEN - 3 = 67 from rfl, htk]
    rfl

/-- C6 witness: an 85-character ASCII line is truncated to its first 67
characters plus `"..."`. -/
theorem truncation_bytes_witness :
    (∀ c ∈ asciiLine85.toList, c.utf8Size = 1) ∧ asciiLine85.toList.length = 85 ∧
    statusPrint asciiLine85 = some (String.mk (asciiLine85.toList.take 67) ++ "...") := by
  refine ⟨by decide, by decide, ?_⟩
  exact (truncation_bytes asciiLine85).2.2 (by decide) (by decide)

/-- C7: the status line defaults a missing title to `"Unknown"`, a
missing album to `"Unknown"`, and uses the first element of the metadata
artists list, defaulting to `"Unknown"` when the list is missing or
empty; a playing player with none of the three produces
`"Unknown // Unknown @ Unknown"` after the icon part dictated by the
flags. -/
theorem status_defaulting (p : RunningPlayer) (ni : Bool) (sp : Nat)
    (ht : p.meta.title = none) (ha : p.meta.albumName = none)
    (hart : p.meta.albumArtists = none ∨ p.meta.albumArtists = some []) :
    statusLine p ni sp = iconPart p.identity ni sp ++ "Unknown // Unknown @ Unknown" := by
  rcases hart with h | h <;>
  · simp only [statusLine, ht, ha, h, Option.getD_none, Option.getD_some,
      List.isEmpty_nil, if_pos, List.headD]
    rw [String.append_assoc, String.append_assoc, String.append_assoc,
      String.append_assoc]
    rfl

/-- C7 witness: a playing `mpv` with no title, no album and an empty
artists list yields the fully defaulted line. -/
theorem status_defaulting_witness :
    statusLine bareMpv false 1 = iconPart "mpv" false 1 ++ "Unknown // Unknown @ Unknown" :=
  status_defaulting bareMpv false 1 rfl rfl (Or.inr rfl)

/-- C8 counterexample: with `mpv` and `Spotify` running (URLs `u1`, `u2`),
the `Url` action emits both URLs via `print!` with no newline at all:
standard output is the single chunk `"u1u2"`, not one line per matched
pair. -/
theorem url_no_newline_counterexample :
    run ⟨.single, .url⟩ (okWorld [mpvPlaying, spotifyPlaying]) =
      ([.rawOut "u1", .rawOut "u2"], .ok true) ∧
    stdoutText (run ⟨.single, .url⟩ (okWorld [mpvPlaying, spotifyPlaying])).1 = "u1u2" ∧
    countNl (stdoutText (run ⟨.single, .url⟩ (okWorld [mpvPlaying, spotifyPlaying])).1) = 0 := by
  decide

/-- C8 amended: for the `Url` action, every matched pair whose identity
parses into a known `PlayerIdentity` has its metadata URL (empty string
if absent) written to standard output *without a trailing newline*
(successive URLs concatenate), with no early exit; pairs whose identity
does not parse print nothing. -/
theorem url_broadcast (mode : Mode) (w : World) (players : List RunningPlayer)
    (hNew : w.finderNew = .ok ()) (hAll : w.findAll = .ok players) :
    run ⟨mode, .url⟩ w =
      ((resolve ranking players).flatMap (fun pr => urlEvents pr.2), .ok true) := by
  have hno : ∀ p, (dispatch .url p).2 = none := fun p => rfl
  simp only [run, hNew, hAll]
  rw [loopRanking_broadcast _ _ _ hno]
  simp [afterLoop, dispatch]

/-- C8 witness: one matched pair, one URL chunk written. -/
theorem url_broadcast_witness :
    run ⟨.single, .url⟩ (okWorld [spotifyPlaying]) = ([.rawOut "u2"], .ok true) := by
  have h := url_broadcast .single (okWorld [spotifyPlaying]) [spotifyPlaying] rfl rfl
  rw [h]
  decide

/-- C9 counterexample: when bus enumeration fails, `run` panics (the
`unwrap` on `find_all`) instead of returning a `Bus` error: the process
terminates by panic, not with exit code 2, and no error value is
produced. -/
theorem enum_panic_counterexample :
    mainRun ⟨.single, .operation .play⟩ enumFailWorld = ([], .panic2) ∧
    ExitKind.panic2 ≠ ExitKind.code 2 ∧
    run ⟨.single, .operation .play⟩ enumFailWorld ≠
      ([], .err (PlayingError.fromDBus "enumeration failed")) := by
  decide

/-- C9 amended: for every non-`Favorite` action, a failing bus
enumeration makes `run` terminate by panic (the `unwrap` on `find_all`),
before any event is emitted and outside the error taxonomy. -/
theorem enum_failure_panics (mode : Mode) (act : Action) (w : World) (msg : String)
    (hNew : w.finderNew = .ok ()) (hAll : w.findAll = .error msg)
    (hact : ∀ poll always, act ≠ .favorite poll always) :
    run ⟨mode, act⟩ w = ([], .panicked) := by
  cases act with
  | favorite poll always => exact absurd rfl (hact poll always)
  | operation op => simp [run, hNew, hAll]
  | player => simp [run, hNew, hAll]
  | status a b c => simp [run, hNew, hAll]
  | url => simp [run, hNew, hAll]

/-- C9 witness: the `Player` action on a failing enumeration panics. -/
theorem enum_failure_panics_witness :
    run ⟨.single, .player⟩ enumFailWorld = ([], .panicked) :=
  enum_failure_panics .single .player enumFailWorld "enumeration failed" rfl rfl
    (fun _ _ h => Action.noConfusion h)

/-- C10 counterexample: the `Custom` variant's icon is not empty (it is
the generic note glyph U+F001), and an identity string that fails to
parse is likewise given U+F001 rather than the empty icon. -/
theorem icon_not_empty_counterexample :
    (Player.Custom "mpv").icon ≠ "" ∧
    Player.parse "kodi" = none ∧
    iconGlyph "kodi" = String.mk [Char.ofNat 0xF001] ∧
    iconGlyph "kodi" ≠ "" := by
  decide

/-- C10 amended: the status icon is determined solely by re-parsing the
running player's bus identity string, never by the ranking entry: an
unparsable identity gets the generic note glyph U+F001, and a player with
identity `"mpv"`, although matched via the ranking entry `Custom("mpv")`,
is displayed with the `Mpv` variant's glyph, which differs from the
`Custom` variant's (non-empty, U+F001) glyph. -/
theorem status_icon_reparse (s : String) (hs : Player.parse s = none) :
    iconGlyph s = String.mk [Char.ofNat 0xF001] ∧
    iconGlyph "mpv" = Player.Mpv.icon ∧
    Player.Mpv.icon ≠ (Player.Custom "mpv").icon ∧
    resolve ranking [mpvPlaying] = [(Player.Custom "mpv", mpvPlaying)] ∧
    run ⟨.single, .status false 1 false⟩ (okWorld [mpvPlaying]) =
      ([.out (Player.Mpv.icon ++ " T // A @ Ar")], .ok true) := by
  refine ⟨?_, by decide, by decide, by decide, by decide⟩
  simp [iconGlyph, hs]

/-- C10 witness: instantiated at the unparsable identity `"kodi"`. -/
theorem status_icon_reparse_witness :
    iconGlyph "kodi" = String.mk [Char.ofNat 0xF001] ∧
    run ⟨.single, .status false 1 false⟩ (okWorld [mpvPlaying]) =
      ([.out (Player.Mpv.icon ++ " T // A @ Ar")], .ok true) := by
  have h := status_icon_reparse "kodi" rfl
  exact ⟨h.1, h.2.2.2.2⟩

end Playing
